import Mathlib

/-!
Verification of the OPC (Open Pixel Control) codec from `src/lib.rs`.

Bytes are modelled as `Nat` values (the code works on `u8`; where a claim
depends on byte range it carries an explicit hypothesis). The encoder
`Client.send` is modelled as the list of bytes written to the sink; the
decoder `Server.receive` as a function from the buffered bytes to an
outcome. Rust index-out-of-bounds aborts are modelled by the explicit
outcome `ReceiveOutcome.panic`.
-/

/-- Source constant `MAX_MESSAGE_SIZE: usize = 0xffff`. -/
def MAX_MESSAGE_SIZE : Nat := 0xffff

/-- Source constant `SYS_EXCLUSIVE: u8 = 0xff`. -/
def SYS_EXCLUSIVE : Nat := 0xff

/-- Source constant `SET_PIXEL_COLORS: u8 = 0x00`. -/
def SET_PIXEL_COLORS : Nat := 0x00

/-- Source constant `BROADCAST_CHANNEL: u8 = 0`. -/
def BROADCAST_CHANNEL : Nat := 0

/-- Model of `enum Command` from the source: either a list of RGB pixel triples or a
system-exclusive block with a two-byte id and opaque data. -/
inductive Command where
  | setPixelColors (pixels : List (Nat × Nat × Nat))
  | systemExclusive (id : Nat × Nat) (data : List Nat)
  deriving DecidableEq, Repr

/-- Model of `struct Message` from the source: a channel byte and a command. -/
structure Message where
  channel : Nat
  command : Command
  deriving DecidableEq, Repr

/-- Model of `Message::len`: `pixels.len()*3` for SetPixelColors,
`data.len() + 2` for SystemExclusive. -/
def Message.len (m : Message) : Nat :=
  match m.command with
  | .setPixelColors pixels => pixels.length * 3
  | .systemExclusive _ data => data.length + 2

/-- Model of `Message::is_valid`: `self.len() <= MAX_MESSAGE_SIZE`. -/
def Message.is_valid (m : Message) : Bool :=
  m.len ≤ MAX_MESSAGE_SIZE

/-- Model of `Message::is_broadcast`: `self.channel == BROADCAST_CHANNEL`. -/
def Message.is_broadcast (m : Message) : Bool :=
  m.channel = BROADCAST_CHANNEL

/-- The command tag byte the encoder writes: `SET_PIXEL_COLORS` (0x00) or
`SYS_EXCLUSIVE` (0xff). -/
def Command.tag : Command → Nat
  | .setPixelColors _ => SET_PIXEL_COLORS
  | .systemExclusive _ _ => SYS_EXCLUSIVE

/-- The payload bytes the encoder writes after the 4-byte header:
each pixel as its three bytes in order for SetPixelColors, or the
two id bytes followed by the data for SystemExclusive. -/
def Command.payload : Command → List Nat
  | .setPixelColors pixels => pixels.flatMap (fun p => [p.1, p.2.1, p.2.2])
  | .systemExclusive id data => [id.1, id.2] ++ data

/-- Model of `write_u16::<BigEndian>(ser_len as u16)`: the `as u16` cast truncates
modulo 2^16, then the two big-endian bytes are written. -/
def u16be (n : Nat) : List Nat :=
  [n % 65536 / 256, n % 65536 % 256]

/-- Model of `Client::send`: the exact byte sequence written to the sink — channel
byte, command tag byte, big-endian 16-bit length (`msg.len() as u16`),
then the payload. -/
def Client.send (m : Message) : List Nat :=
  [m.channel, m.command.tag] ++ u16be m.len ++ m.command.payload

/-- Outcome of one `Server::receive` call: a successful parse delivering
one message to the device and consuming `consumed` bytes, the
`ErrorKind::InvalidData` error return, or a Rust panic (index out of
bounds while slicing the buffer). -/
inductive ReceiveOutcome where
  | ok (consumed : Nat) (delivered : Message)
  | invalidData (s : String)
  | panic
  deriving DecidableEq, Repr

/-- Model of `data.chunks(3).map(|chunk| [chunk[0],chunk[1],chunk[2]])`: groups the
bytes into triples; a trailing chunk of fewer than 3 bytes would make
`chunk[1]` or `chunk[2]` panic (`none`). -/
def toPixels : List Nat → Option (List (Nat × Nat × Nat))
  | [] => some []
  | a :: b :: c :: rest => (toPixels rest).map (fun ps => (a, b, c) :: ps)
  | _ => none

/-- Model of `Server::receive`, one call, on the currently buffered bytes.

Control flow of the source, line by line: `if buf.len() < 4 { () }` is a
no-op (its body is the unit value, not a return), so a buffer shorter
than 4 bytes panics at `buf[0]`, `buf[1]` or `&buf[2..4]`; the length is
the big-endian u16 at offsets 2–3; `&buf[4..][..length]` panics when
fewer than `4 + length` bytes are buffered; tag 0x00 chunks
`data[..length - length % 3]` into pixels; tag 0xff reads `data[0]`,
`data[1]` and `&data[2..]`, panicking when the payload is shorter than 2;
any other tag returns `Err(InvalidData, "Invalid Message Command")`
before `consume` runs; on success `length + 4` bytes are consumed. -/
def Server.receive (buf : List Nat) : ReceiveOutcome :=
  match buf with
  | b0 :: b1 :: b2 :: b3 :: rest =>
      let length := b2 * 256 + b3
      if rest.length < length then .panic
      else
        let data := rest.take length
        if b1 = SET_PIXEL_COLORS then
          match toPixels (data.take (length - length % 3)) with
          | some pixels => .ok (length + 4) ⟨b0, .setPixelColors pixels⟩
          | none => .panic
        else if b1 = SYS_EXCLUSIVE then
          match data with
          | d0 :: d1 :: drest => .ok (length + 4) ⟨b0, .systemExclusive (d0, d1) drest⟩
          | _ => .panic
        else .invalidData "Invalid Message Command"
  | _ => .panic

/-- The buffered bytes after one `Server::receive` call:
`self.reader.consume(length)` runs only on the `Ok` path; an early
`return Err` (and a panic) leaves the reader untouched. -/
def bufferAfter (buf : List Nat) : List Nat :=
  match Server.receive buf with
  | .ok n _ => buf.drop n
  | _ => buf

/-- The big-endian u16 at offsets 2–3 of a buffer: the declared payload
length of the frame at its front (0 when no 4-byte header is present). -/
def declaredLen : List Nat → Nat
  | _ :: _ :: b2 :: b3 :: _ => b2 * 256 + b3
  | _ => 0

/-- Model of the full receive pipeline over a byte stream: the server's
`BufReader` is created with capacity `MAX_MESSAGE_SIZE` (65535), so one
`fill_buf` on a fresh reader buffers at most that many of the stream's
bytes, and `Server::receive` parses that capped prefix. -/
def Server.receiveFromStream (stream : List Nat) : ReceiveOutcome :=
  Server.receive (stream.take MAX_MESSAGE_SIZE)

/-- Equation form of `Server.receive` on a buffer with at least 4 bytes. -/
theorem receive_cons (b0 b1 b2 b3 : Nat) (rest : List Nat) :
    Server.receive (b0 :: b1 :: b2 :: b3 :: rest) =
      (if rest.length < b2 * 256 + b3 then .panic
       else if b1 = SET_PIXEL_COLORS then
         match toPixels ((rest.take (b2 * 256 + b3)).take
             (b2 * 256 + b3 - (b2 * 256 + b3) % 3)) with
         | some pixels => .ok (b2 * 256 + b3 + 4) ⟨b0, .setPixelColors pixels⟩
         | none => .panic
       else if b1 = SYS_EXCLUSIVE then
         match rest.take (b2 * 256 + b3) with
         | d0 :: d1 :: drest =>
             .ok (b2 * 256 + b3 + 4) ⟨b0, .systemExclusive (d0, d1) drest⟩
         | _ => .panic
       else .invalidData "Invalid Message Command") := rfl

/-- The pixel payload has three bytes per pixel. -/
theorem flat_pixels_length (ps : List (Nat × Nat × Nat)) :
    (ps.flatMap (fun p => [p.1, p.2.1, p.2.2])).length = ps.length * 3 := by
  induction ps with
  | nil => rfl
  | cons p ps ih => simp [List.flatMap_cons, ih]; ring

/-- Chunking the encoder's pixel payload recovers the pixel list. -/
theorem toPixels_flat (ps : List (Nat × Nat × Nat)) :
    toPixels (ps.flatMap (fun p => [p.1, p.2.1, p.2.2])) = some ps := by
  induction ps with
  | nil => rfl
  | cons p ps ih =>
      obtain ⟨a, b, c⟩ := p
      show toPixels (a :: b :: c :: ps.flatMap fun p => [p.1, p.2.1, p.2.2])
          = some ((a, b, c) :: ps)
      simp only [toPixels]
      rw [ih]
      rfl

/-- Chunking a byte list whose length is an exact multiple of 3 succeeds
and yields one pixel per three bytes. -/
theorem toPixels_length_eq (k : Nat) :
    ∀ l : List Nat, l.length = 3 * k →
      ∃ ps, toPixels l = some ps ∧ ps.length = k := by
  induction k with
  | zero =>
      intro l hl
      have : l = [] := List.length_eq_zero.mp (by omega)
      subst this
      exact ⟨[], rfl, rfl⟩
  | succ k ih =>
      intro l hl
      rcases l with _ | ⟨a, l⟩
      · simp only [List.length_nil] at hl; omega
      rcases l with _ | ⟨b, l⟩
      · simp only [List.length_cons, List.length_nil] at hl; omega
      rcases l with _ | ⟨c, rest⟩
      · simp only [List.length_cons, List.length_nil] at hl; omega
      simp only [List.length_cons] at hl
      obtain ⟨ps, h1, h2⟩ := ih rest (by omega)
      exact ⟨(a, b, c) :: ps, by simp [toPixels, h1], by simp [h2]⟩

/-- The payload section's byte count equals `Message::len`. -/
theorem payload_length (m : Message) : m.command.payload.length = m.len := by
  obtain ⟨ch, c⟩ := m
  cases c with
  | setPixelColors ps => simpa [Command.payload, Message.len] using flat_pixels_length ps
  | systemExclusive id data => simp [Command.payload, Message.len]

/-- Closed form of `Message::len` on a SystemExclusive message. -/
theorem len_sysex (ch : Nat) (i : Nat × Nat) (d : List Nat) :
    Message.len ⟨ch, .systemExclusive i d⟩ = d.length + 2 := rfl

/-- C2: the claim says a buffer with fewer than 4 bytes, or fewer than
`4 + declared-length` bytes, yields an incomplete outcome with zero bytes
consumed and zero frames delivered. The code instead panics on every such
buffer: the `if buf.len() < 4 { () }` guard is a no-op and the slice
`&buf[4..][..length]` indexes past the buffered bytes. -/
theorem C2_short_buffer_panics (buf : List Nat)
    (h : buf.length < 4 ∨ buf.length < 4 + declaredLen buf) :
    Server.receive buf = ReceiveOutcome.panic := by
  rcases buf with _ | ⟨b0, _ | ⟨b1, _ | ⟨b2, _ | ⟨b3, rest⟩⟩⟩⟩
  · rfl
  · rfl
  · rfl
  · rfl
  · have hlt : rest.length < b2 * 256 + b3 := by
      simp only [declaredLen, List.length_cons] at h
      omega
    rw [receive_cons, if_pos hlt]

/-- C2 witness: a 3-byte buffer is shorter than 4 bytes and the decoder
panics on it. -/
theorem C2_short_buffer_panics_witness :
    ([0, 0, 0] : List Nat).length < 4
    ∧ Server.receive [0, 0, 0] = ReceiveOutcome.panic :=
  ⟨by decide, C2_short_buffer_panics [0, 0, 0] (Or.inl (by decide))⟩

/-- C4: the claim says a SystemExclusive frame with declared payload
length below 2 fails cleanly with a malformed-frame error. The code
instead panics: it reads `data[0]`, `data[1]` and `&data[2..]` without
checking the payload length. -/
theorem C4_sysex_short_panics (b0 b2 b3 : Nat) (rest : List Nat)
    (hshort : b2 * 256 + b3 < 2) (hc : b2 * 256 + b3 ≤ rest.length) :
    Server.receive (b0 :: SYS_EXCLUSIVE :: b2 :: b3 :: rest)
      = ReceiveOutcome.panic := by
  rw [receive_cons, if_neg (by omega), if_neg (by decide), if_pos rfl]
  have hlen : (rest.take (b2 * 256 + b3)).length < 2 := by
    rw [List.length_take]; omega
  rcases htake : rest.take (b2 * 256 + b3) with _ | ⟨d0, _ | ⟨d1, dr⟩⟩
  · rfl
  · rfl
  · rw [htake] at hlen
    simp only [List.length_cons] at hlen
    omega

/-- C4 witness: the frame `[4, 0xff, 0, 0]` declares a SystemExclusive
payload of length 0 and the decoder panics on it. -/
theorem C4_sysex_short_panics_witness :
    0 * 256 + 0 < 2 ∧ 0 * 256 + 0 ≤ ([] : List Nat).length
    ∧ Server.receive [4, SYS_EXCLUSIVE, 0, 0] = ReceiveOutcome.panic :=
  ⟨by decide, by decide, C4_sysex_short_panics 4 0 0 [] (by decide) (by decide)⟩

/-- C5: a complete frame whose command tag is neither 0x00 nor 0xff makes
`Server::receive` return the `InvalidData` "Invalid Message Command"
error, an outcome distinct from what a malformed SystemExclusive frame
produces (a malformed frame never yields this error: it panics). -/
theorem C5_unknown_tag_error (b0 b1 b2 b3 : Nat) (rest : List Nat)
    (hspc : b1 ≠ SET_PIXEL_COLORS) (hsys : b1 ≠ SYS_EXCLUSIVE)
    (hc : b2 * 256 + b3 ≤ rest.length) :
    Server.receive (b0 :: b1 :: b2 :: b3 :: rest)
      = ReceiveOutcome.invalidData "Invalid Message Command"
    ∧ ∀ c0 c2 c3 : Nat, ∀ r2 : List Nat, c2 * 256 + c3 < 2 →
        Server.receive (c0 :: SYS_EXCLUSIVE :: c2 :: c3 :: r2)
          ≠ ReceiveOutcome.invalidData "Invalid Message Command" := by
  constructor
  · rw [receive_cons, if_neg (by omega), if_neg hspc, if_neg hsys]
  · intro c0 c2 c3 r2 hlt2
    rw [receive_cons]
    by_cases hr : r2.length < c2 * 256 + c3
    · rw [if_pos hr]; simp
    · rw [if_neg hr, if_neg (by decide), if_pos rfl]
      rcases htake : r2.take (c2 * 256 + c3) with _ | ⟨d0, _ | ⟨d1, dr⟩⟩
      · simp
      · simp
      · simp

/-- C5 witness: the complete frame `[1, 5, 0, 0]` carries the unknown tag
5 and produces the unrecognized-command error. -/
theorem C5_unknown_tag_error_witness :
    (5 : Nat) ≠ SET_PIXEL_COLORS ∧ (5 : Nat) ≠ SYS_EXCLUSIVE
    ∧ 0 * 256 + 0 ≤ ([] : List Nat).length
    ∧ (Server.receive [1, 5, 0, 0]
         = ReceiveOutcome.invalidData "Invalid Message Command"
       ∧ ∀ c0 c2 c3 : Nat, ∀ r2 : List Nat, c2 * 256 + c3 < 2 →
           Server.receive (c0 :: SYS_EXCLUSIVE :: c2 :: c3 :: r2)
             ≠ ReceiveOutcome.invalidData "Invalid Message Command") :=
  ⟨by decide, by decide, by decide,
    C5_unknown_tag_error 1 5 0 0 [] (by decide) (by decide) (by decide)⟩

/-- C6: `Message::len` returns 3 times the pixel count for SetPixelColors
and 2 plus the data length for SystemExclusive, and `is_valid` is true
exactly when `len` is at most 65535. -/
theorem C6_len_is_valid (m : Message) :
    m.len = (match m.command with
             | .setPixelColors ps => 3 * ps.length
             | .systemExclusive _ d => 2 + d.length)
    ∧ (m.is_valid = true ↔ m.len ≤ 65535) := by
  constructor
  · obtain ⟨ch, c⟩ := m
    cases c with
    | setPixelColors ps => simp [Message.len]; ring
    | systemExclusive id data => simp [Message.len]; omega
  · simp [Message.is_valid, MAX_MESSAGE_SIZE]

/-- C7: `Client::send` writes exactly one channel byte, one command tag
byte, the big-endian 16-bit length, then a payload whose byte count
equals `len()`; sending channel 4 with ten (9,9,9) pixels produces
`[0x04, 0x00, 0x00, 0x1E]` followed by thirty `0x09` bytes. -/
theorem C7_send_layout (m : Message) :
    Client.send m = m.channel :: m.command.tag :: m.len % 65536 / 256
        :: m.len % 65536 % 256 :: m.command.payload
    ∧ m.command.payload.length = m.len
    ∧ Client.send ⟨4, .setPixelColors (List.replicate 10 (9, 9, 9))⟩
        = [0x04, 0x00, 0x00, 0x1E] ++ List.replicate 30 0x09 :=
  ⟨rfl, payload_length m, by decide⟩

/-- C10: a complete frame with an unrecognized tag makes `Server::receive`
return its error before `consume` runs, so the buffered bytes after the
call are identical to the bytes before it. -/
theorem C10_unknown_tag_consumes_nothing (b0 b1 b2 b3 : Nat) (rest : List Nat)
    (hspc : b1 ≠ SET_PIXEL_COLORS) (hsys : b1 ≠ SYS_EXCLUSIVE)
    (hc : b2 * 256 + b3 ≤ rest.length) :
    Server.receive (b0 :: b1 :: b2 :: b3 :: rest)
      = ReceiveOutcome.invalidData "Invalid Message Command"
    ∧ bufferAfter (b0 :: b1 :: b2 :: b3 :: rest) = b0 :: b1 :: b2 :: b3 :: rest := by
  have herr : Server.receive (b0 :: b1 :: b2 :: b3 :: rest)
      = ReceiveOutcome.invalidData "Invalid Message Command" := by
    rw [receive_cons, if_neg (by omega), if_neg hspc, if_neg hsys]
  exact ⟨herr, by simp only [bufferAfter, herr]⟩

/-- C10 witness: the frame `[2, 7, 0, 1, 8]` with unknown tag 7 errors
and the buffer is left unchanged. -/
theorem C10_unknown_tag_consumes_nothing_witness :
    (7 : Nat) ≠ SET_PIXEL_COLORS ∧ (7 : Nat) ≠ SYS_EXCLUSIVE
    ∧ 0 * 256 + 1 ≤ ([8] : List Nat).length
    ∧ (Server.receive [2, 7, 0, 1, 8]
         = ReceiveOutcome.invalidData "Invalid Message Command"
       ∧ bufferAfter [2, 7, 0, 1, 8] = [2, 7, 0, 1, 8]) :=
  ⟨by decide, by decide, by decide,
    C10_unknown_tag_consumes_nothing 2 7 0 1 [8] (by decide) (by decide) (by decide)⟩

/-- Decoding a well-formed SetPixelColors frame: header with the exact
length of the pixel payload, followed by the flattened pixels. -/
theorem receive_spc_frame (ch : Nat) (ps : List (Nat × Nat × Nat)) :
    Server.receive (ch :: SET_PIXEL_COLORS :: ps.length * 3 / 256
        :: ps.length * 3 % 256 :: ps.flatMap (fun p => [p.1, p.2.1, p.2.2]))
      = ReceiveOutcome.ok (ps.length * 3 + 4) ⟨ch, .setPixelColors ps⟩ := by
  rw [receive_cons, Nat.div_add_mod']
  rw [if_neg (by rw [flat_pixels_length]; omega)]
  rw [if_pos rfl]
  have htake : (ps.flatMap fun p => [p.1, p.2.1, p.2.2]).take (ps.length * 3)
      = ps.flatMap fun p => [p.1, p.2.1, p.2.2] :=
    List.take_of_length_le (by rw [flat_pixels_length])
  rw [Nat.mul_mod_left, Nat.sub_zero, htake, htake, toPixels_flat]

/-- Decoding a well-formed SystemExclusive frame: header with the exact
length of the id-plus-data payload, followed by that payload. -/
theorem receive_sysex_frame (ch i0 i1 : Nat) (data : List Nat) :
    Server.receive (ch :: SYS_EXCLUSIVE :: (data.length + 2) / 256
        :: (data.length + 2) % 256 :: i0 :: i1 :: data)
      = ReceiveOutcome.ok (data.length + 2 + 4) ⟨ch, .systemExclusive (i0, i1) data⟩ := by
  rw [receive_cons, Nat.div_add_mod']
  rw [if_neg (by simp)]
  rw [if_neg (by decide), if_pos rfl]
  have htake : (i0 :: i1 :: data).take (data.length + 2) = i0 :: i1 :: data :=
    List.take_of_length_le (by simp)
  rw [htake]

/-- Round trip of the parser on the encoder's bytes, assuming the whole
frame is in the buffer (the pipeline-level theorem below additionally
accounts for the reader's capacity). -/
theorem receive_send_roundtrip (m : Message) (hv : m.len ≤ 65535) :
    Server.receive (Client.send m) = ReceiveOutcome.ok (m.len + 4) m := by
  obtain ⟨ch, c⟩ := m
  cases c with
  | setPixelColors ps =>
      have hlen : Message.len ⟨ch, Command.setPixelColors ps⟩ = ps.length * 3 := rfl
      rw [hlen] at hv
      have hmod : ps.length * 3 % 65536 = ps.length * 3 := Nat.mod_eq_of_lt (by omega)
      have hsend : Client.send ⟨ch, Command.setPixelColors ps⟩
          = ch :: SET_PIXEL_COLORS :: ps.length * 3 / 256 :: ps.length * 3 % 256
            :: ps.flatMap (fun p => [p.1, p.2.1, p.2.2]) := by
        simp [Client.send, u16be, Command.tag, Command.payload, hlen, hmod]
      rw [hsend, hlen]
      exact receive_spc_frame ch ps
  | systemExclusive id data =>
      obtain ⟨i0, i1⟩ := id
      have hlen : Message.len ⟨ch, Command.systemExclusive (i0, i1) data⟩
          = data.length + 2 := rfl
      rw [hlen] at hv
      have hmod : (data.length + 2) % 65536 = data.length + 2 :=
        Nat.mod_eq_of_lt (by omega)
      have hsend : Client.send ⟨ch, Command.systemExclusive (i0, i1) data⟩
          = ch :: SYS_EXCLUSIVE :: (data.length + 2) / 256 :: (data.length + 2) % 256
            :: i0 :: i1 :: data := by
        simp [Client.send, u16be, Command.tag, Command.payload, hlen, hmod]
      rw [hsend, hlen]
      exact receive_sysex_frame ch i0 i1 data

/-- Byte count of an encoded frame: 4 header bytes plus the payload. -/
theorem send_length (m : Message) : (Client.send m).length = m.len + 4 := by
  simp only [Client.send, u16be, List.cons_append, List.nil_append, List.length_cons,
    payload_length]

/-- Peeling one element off a positive-length take. -/
theorem take_cons_pos (n a : Nat) (l : List Nat) (h : 0 < n) :
    (a :: l).take n = a :: l.take (n - 1) := by
  cases n with
  | zero => exact absurd h (by omega)
  | succ m => simp [List.take_succ_cons]

/-- A frame longer than the reader capacity never parses: the buffered
prefix is capped at 65535 bytes while the declared payload needs more,
so `&buf[4..][..length]` panics. -/
theorem receive_capacity_panic (b0 b1 b2 b3 : Nat) (payload : List Nat)
    (hplen : payload.length = b2 * 256 + b3) (hbig : 65531 < b2 * 256 + b3) :
    Server.receiveFromStream (b0 :: b1 :: b2 :: b3 :: payload)
      = ReceiveOutcome.panic := by
  rw [show Server.receiveFromStream (b0 :: b1 :: b2 :: b3 :: payload)
      = Server.receive ((b0 :: b1 :: b2 :: b3 :: payload).take 65535) from rfl]
  rw [take_cons_pos 65535 b0 _ (by omega)]
  rw [take_cons_pos (65535 - 1) b1 _ (by omega)]
  rw [take_cons_pos (65535 - 1 - 1) b2 _ (by omega)]
  rw [take_cons_pos (65535 - 1 - 1 - 1) b3 _ (by omega)]
  rw [receive_cons]
  rw [if_pos (by rw [List.length_take, hplen]; omega)]

/-- Cons form of the encoder on a SystemExclusive message. -/
theorem send_sysex (ch i0 i1 : Nat) (d : List Nat) :
    Client.send ⟨ch, .systemExclusive (i0, i1) d⟩
      = ch :: SYS_EXCLUSIVE
        :: Message.len ⟨ch, .systemExclusive (i0, i1) d⟩ % 65536 / 256
        :: Message.len ⟨ch, .systemExclusive (i0, i1) d⟩ % 65536 % 256
        :: i0 :: i1 :: d := rfl

/-- Valid message whose frame exceeds the reader capacity: SystemExclusive
with 65530 data bytes, so `len() = 65532 ≤ 65535` but the frame is
`4 + 65532 = 65536` bytes, one more than `fill_buf` can ever buffer. -/
def edgeMsg : Message := ⟨0, .systemExclusive (0, 0) (List.replicate 65530 0)⟩

/-- Length of the edge message, established by rewriting alone (the
65530-element list is never evaluated). -/
theorem edgeMsg_len : edgeMsg.len = 65532 := by
  rw [show edgeMsg = ⟨0, .systemExclusive (0, 0) (List.replicate 65530 0)⟩ from rfl]
  rw [len_sysex, List.length_replicate]

/-- C1 counterexample: `edgeMsg` is valid (channel 0, `len() = 65532 ≤
65535`), yet decoding the bytes `Client::send` produces does not deliver
the message — it panics. Its 65536-byte frame never fits the `BufReader`
capacity of `MAX_MESSAGE_SIZE = 65535` (lib.rs:127), so `fill_buf` caps
the buffer at 65535 bytes and `&buf[4..][..length]` indexes past it. -/
theorem C1_round_trip_counterexample :
    edgeMsg.channel ≤ 255 ∧ edgeMsg.len ≤ 65535
    ∧ Server.receiveFromStream (Client.send edgeMsg) = ReceiveOutcome.panic
    ∧ Server.receiveFromStream (Client.send edgeMsg)
        ≠ ReceiveOutcome.ok (edgeMsg.len + 4) edgeMsg := by
  have hpanic : Server.receiveFromStream (Client.send edgeMsg)
      = ReceiveOutcome.panic := by
    rw [show edgeMsg = ⟨0, .systemExclusive (0, 0) (List.replicate 65530 0)⟩ from rfl]
    rw [send_sysex, len_sysex, List.length_replicate]
    show Server.receiveFromStream (0 :: SYS_EXCLUSIVE
        :: 255 :: 252 :: 0 :: 0 :: List.replicate 65530 0) = ReceiveOutcome.panic
    exact receive_capacity_panic 0 SYS_EXCLUSIVE 255 252 (0 :: 0 :: List.replicate 65530 0)
      (by rw [List.length_cons, List.length_cons, List.length_replicate])
      (by omega)
  refine ⟨?_, ?_, hpanic, ?_⟩
  · rw [show edgeMsg.channel = 0 from rfl]
    omega
  · rw [edgeMsg_len]
    omega
  · rw [hpanic]
    simp

/-- C1 (amended): for a valid Message with channel 0–255 and serialized
payload at most 65531 bytes — so that the whole `4 + len` frame fits the
reader's 65535-byte capacity — encoding with `Client::send` and decoding
the produced bytes with `Server::receive` delivers a Message equal to
the original: same channel, same command variant, same payload content.
Valid payloads of 65532–65535 bytes are excluded: their frames exceed
the capacity and the decoder panics (see the counterexample). -/
theorem C1_round_trip_amended (m : Message) (hch : m.channel ≤ 255)
    (hv : m.len ≤ 65531) :
    Server.receiveFromStream (Client.send m)
      = ReceiveOutcome.ok (m.len + 4) m := by
  have htake : (Client.send m).take MAX_MESSAGE_SIZE = Client.send m :=
    List.take_of_length_le (by rw [send_length]; show m.len + 4 ≤ 65535; omega)
  rw [show Server.receiveFromStream (Client.send m)
      = Server.receive ((Client.send m).take MAX_MESSAGE_SIZE) from rfl]
  rw [htake]
  exact receive_send_roundtrip m (by omega)

/-- Test message from the source's `server_should_receive_pixel_command`:
channel 4 with ten (9,9,9) pixels. -/
def testMsg : Message := ⟨4, .setPixelColors (List.replicate 10 (9, 9, 9))⟩

/-- C1 witness: the source's own test message (len 30) round-trips
through the capacity-bounded pipeline. -/
theorem C1_round_trip_amended_witness :
    testMsg.channel ≤ 255 ∧ testMsg.len ≤ 65531
    ∧ Server.receiveFromStream (Client.send testMsg)
        = ReceiveOutcome.ok (testMsg.len + 4) testMsg :=
  ⟨by decide, by decide, C1_round_trip_amended testMsg (by decide) (by decide)⟩

/-- C3: a complete SetPixelColors frame whose declared payload length is
`3k+1` or `3k+2` is delivered as a message with exactly `k` pixels — the
trailing one or two bytes are dropped. -/
theorem C3_pixel_truncation (b0 b2 b3 k : Nat) (rest : List Nat)
    (hlen : b2 * 256 + b3 = 3 * k + 1 ∨ b2 * 256 + b3 = 3 * k + 2)
    (hc : b2 * 256 + b3 ≤ rest.length) :
    ∃ ps, Server.receive (b0 :: SET_PIXEL_COLORS :: b2 :: b3 :: rest)
        = ReceiveOutcome.ok (b2 * 256 + b3 + 4) ⟨b0, .setPixelColors ps⟩
      ∧ ps.length = k := by
  have hmod : b2 * 256 + b3 - (b2 * 256 + b3) % 3 = 3 * k := by
    rcases hlen with h | h <;> omega
  have hsub : ((rest.take (b2 * 256 + b3)).take (3 * k)).length = 3 * k := by
    rw [List.length_take, List.length_take]
    rcases hlen with h | h <;> omega
  obtain ⟨ps, h1, h2⟩ := toPixels_length_eq k _ hsub
  refine ⟨ps, ?_, h2⟩
  rw [receive_cons, if_neg (by omega), if_pos rfl, hmod, h1]

/-- C3 witness: a frame declaring 4 payload bytes (`3·1+1`) yields exactly
one pixel. -/
theorem C3_pixel_truncation_witness :
    (0 * 256 + 4 = 3 * 1 + 1 ∨ 0 * 256 + 4 = 3 * 1 + 2)
    ∧ 0 * 256 + 4 ≤ ([10, 20, 30, 40] : List Nat).length
    ∧ ∃ ps, Server.receive (1 :: SET_PIXEL_COLORS :: 0 :: 4 :: [10, 20, 30, 40])
        = ReceiveOutcome.ok (0 * 256 + 4 + 4) ⟨1, .setPixelColors ps⟩
      ∧ ps.length = 1 :=
  ⟨Or.inl (by decide), by decide,
    C3_pixel_truncation 1 0 4 1 [10, 20, 30, 40] (Or.inl (by decide)) (by decide)⟩

/-- C8: when `len()` exceeds 65535, `Client::send` writes a length field
equal to `len()` modulo 2^16 — a value different from `len()` — while
still writing the full payload, and raises no error. -/
theorem C8_length_wraparound (m : Message) (h : 65535 < m.len) :
    Client.send m = m.channel :: m.command.tag :: m.len % 65536 / 256
        :: m.len % 65536 % 256 :: m.command.payload
    ∧ m.len % 65536 / 256 * 256 + m.len % 65536 % 256 = m.len % 65536
    ∧ m.len % 65536 ≠ m.len
    ∧ m.command.payload.length = m.len :=
  ⟨rfl, Nat.div_add_mod' _ 256, by omega, payload_length m⟩

/-- Oversized message: a SystemExclusive payload of 65534 data bytes has
`len() = 65536`, one past the 16-bit ceiling. -/
def bigMsg : Message := ⟨0, .systemExclusive (0, 0) (List.replicate 65534 0)⟩

/-- Length of the oversized message, established by rewriting alone (the
65534-element list is never evaluated). -/
theorem bigMsg_len : bigMsg.len = 65536 := by
  rw [show bigMsg = ⟨0, .systemExclusive (0, 0) (List.replicate 65534 0)⟩ from rfl]
  rw [len_sysex, List.length_replicate]

/-- Oversized message exceeds the 16-bit length ceiling. -/
theorem bigMsg_len_gt : 65535 < bigMsg.len := by
  rw [bigMsg_len]
  omega

/-- C8 witness: the oversized `bigMsg` wraps its length field to 0. -/
theorem C8_length_wraparound_witness :
    65535 < bigMsg.len
    ∧ (Client.send bigMsg = bigMsg.channel :: bigMsg.command.tag
          :: bigMsg.len % 65536 / 256 :: bigMsg.len % 65536 % 256
          :: bigMsg.command.payload
       ∧ bigMsg.len % 65536 / 256 * 256 + bigMsg.len % 65536 % 256
           = bigMsg.len % 65536
       ∧ bigMsg.len % 65536 ≠ bigMsg.len
       ∧ bigMsg.command.payload.length = bigMsg.len) :=
  ⟨bigMsg_len_gt, C8_length_wraparound bigMsg bigMsg_len_gt⟩

/-- C9: a successful `Server::receive` call consumes exactly `4 + L`
bytes, where `L` is the declared payload length at offsets 2–3, leaving
the rest of the buffer in place. -/
theorem C9_consumes_frame (buf : List Nat) (n : Nat) (m : Message)
    (h : Server.receive buf = ReceiveOutcome.ok n m) :
    n = 4 + declaredLen buf ∧ bufferAfter buf = buf.drop (4 + declaredLen buf) := by
  have hn : n = 4 + declaredLen buf := by
    rcases buf with _ | ⟨b0, _ | ⟨b1, _ | ⟨b2, _ | ⟨b3, rest⟩⟩⟩⟩
    · exact absurd h (by simp [Server.receive])
    · exact absurd h (by simp [Server.receive])
    · exact absurd h (by simp [Server.receive])
    · exact absurd h (by simp [Server.receive])
    · rw [receive_cons] at h
      simp only [declaredLen]
      split at h
      · exact absurd h (by simp)
      · split at h
        · split at h
          · injection h with h1 h2
            omega
          · exact absurd h (by simp)
        · split at h
          · split at h
            · injection h with h1 h2
              omega
            · exact absurd h (by simp)
          · exact absurd h (by simp)
  refine ⟨hn, ?_⟩
  rw [← hn]
  simp only [bufferAfter, h]

/-- C9 witness: a 6-byte SystemExclusive frame followed by two extra
bytes consumes exactly 6 bytes and leaves the extra bytes. -/
theorem C9_consumes_frame_witness :
    Server.receive [7, SYS_EXCLUSIVE, 0, 2, 1, 2, 9, 9]
      = ReceiveOutcome.ok 6 ⟨7, .systemExclusive (1, 2) []⟩
    ∧ (6 = 4 + declaredLen [7, SYS_EXCLUSIVE, 0, 2, 1, 2, 9, 9]
       ∧ bufferAfter [7, SYS_EXCLUSIVE, 0, 2, 1, 2, 9, 9]
           = List.drop (4 + declaredLen [7, SYS_EXCLUSIVE, 0, 2, 1, 2, 9, 9])
               [7, SYS_EXCLUSIVE, 0, 2, 1, 2, 9, 9]) :=
  ⟨by decide,
    C9_consumes_frame [7, SYS_EXCLUSIVE, 0, 2, 1, 2, 9, 9] 6
      ⟨7, .systemExclusive (1, 2) []⟩ (by decide)⟩
